import Mathlib

/-!
Verification of the image-inspection interface of the Swift runtime
(`stdlib/public/runtime/ImageInspection.h`): the symbol-resolver ownership
contract, the per-category metadata registries and their callback entry
points, the lazy lookup initializers, and the Windows Debug Help
serialization guard.

Pointers are modelled as natural numbers with `0` for the null pointer.
Calls to the C `free` function are modelled by accumulating the freed
pointer into an explicit log, so that "releases exactly once" becomes a
statement about the log.
-/

namespace ImageInspection

/-- The build platforms distinguished by the header's `#if defined(_WIN32)`. -/
inductive Platform where
  | windows
  | other
  deriving DecidableEq

/-- `null_deleter<T>::operator()` from the header: does nothing to its
argument, so the free log is unchanged. -/
def null_deleter (_p : Nat) (freed : List Nat) : List Nat :=
  freed

/-- `free_deleter<T>::operator()` from the header: calls `free` on the
(const-cast) pointer, recorded as one entry appended to the free log. -/
def free_deleter (p : Nat) (freed : List Nat) : List Nat :=
  freed ++ [p]

/-- The deleter type chosen for `SymbolInfo::symbolName` by the header's
`#if defined(_WIN32)`: `free_deleter<const char>` on Windows,
`null_deleter<const char>` everywhere else. -/
def symbolNameDeleter : Platform → Nat → List Nat → List Nat
  | .windows => free_deleter
  | .other => null_deleter

/-- `swift::SymbolInfo` from the header. `symbolName` holds the raw pointer
stored in the `std::unique_ptr` member; which deleter that `unique_ptr`
carries is decided by the platform (see `symbolNameDeleter`). -/
structure SymbolInfo where
  fileName : Nat
  baseAddress : Nat
  symbolName : Nat
  symbolAddress : Nat
  deriving DecidableEq

/-- The effect of `std::unique_ptr`'s destructor on the free log: it invokes
its deleter on the stored pointer exactly when that pointer is non-null. -/
def uniquePtrDestroy (del : Nat → List Nat → List Nat) (p : Nat)
    (freed : List Nat) : List Nat :=
  if p ≠ 0 then del p freed else freed

/-- The effect of destroying a `SymbolInfo` on the free log: the only member
with a non-trivial destructor is the `symbolName` `unique_ptr`, whose deleter
is selected by the platform. -/
def destroySymbolInfo (plat : Platform) (info : SymbolInfo)
    (freed : List Nat) : List Nat :=
  uniquePtrDestroy (symbolNameDeleter plat) info.symbolName freed

/-- The five metadata categories tracked by the runtime. -/
inductive Category where
  | protocols
  | protocolConformances
  | typeMetadataRecords
  | dynamicReplacements
  | accessibleFunctions
  deriving DecidableEq

/-- Transcription of the callback declarations in the header: every category
has a synchronized `addImage...BlockCallback` entry point. -/
def hasSyncCallback : Category → Bool :=
  fun _ => true

/-- Transcription of the callback declarations in the header: the categories
for which an `addImage...BlockCallbackUnsafe` sibling is declared. The header
declares `addImageProtocolsBlockCallbackUnsafe`,
`addImageProtocolConformanceBlockCallbackUnsafe`,
`addImageTypeMetadataRecordBlockCallbackUnsafe` and
`addImageAccessibleFunctionsBlockCallbackUnsafe`, but no unsafe sibling for
`addImageDynamicReplacementBlockCallback`. -/
def hasUnsafeCallback : Category → Bool
  | .dynamicReplacements => false
  | _ => true

/-- A metadata section range as passed to a callback:
`(baseAddress, start, size)`. -/
structure SectionRange where
  base : Nat
  sectionStart : Nat
  size : Nat
  deriving DecidableEq

/-- The `(base, start)` identity of a registry entry, the pair the spec
declares duplicate-free. -/
def regKey (r : SectionRange) : Nat × Nat :=
  (r.base, r.sectionStart)

/-- One category's registry together with its insertion lock.
Modelled from the spec: the registry implementations behind the
`addImage...BlockCallback` declarations are not part of the header; the spec
describes an append-only, insertion-ordered, lock-protected collection. -/
structure CatRegistry where
  lockHeld : Bool
  entries : List SectionRange
  deriving DecidableEq

/-- Modelled from the spec: the synchronized `addImage...BlockCallback`
entry point. It blocks until the category lock is free (modelled by
returning `none` when the lock is observed held, i.e. the step cannot fire),
then appends the entry under the lock and releases it. -/
def addRangeSync (r : SectionRange) (s : CatRegistry) : Option CatRegistry :=
  if s.lockHeld then
    none
  else
    some { lockHeld := false, entries := s.entries ++ [r] }

/-- Modelled from the spec: the `addImage...BlockCallbackUnsafe` sibling
skips synchronization entirely — it appends without touching the lock. -/
def addRangeUnsafe (r : SectionRange) (s : CatRegistry) : CatRegistry :=
  { s with entries := s.entries ++ [r] }

/-- Modelled from the spec: the registry an ordered sequence of (linearized,
correctly locked) insertions produces, starting from a given registry
contents. Each insertion appends one entry. -/
def runInsertsFrom (acc : List SectionRange) :
    List SectionRange → List SectionRange
  | [] => acc
  | r :: rs => runInsertsFrom (acc ++ [r]) rs

/-- Modelled from the spec: the registry contents produced by a linearized
sequence of insertions into an initially empty registry. -/
def runInserts (rs : List SectionRange) : List SectionRange :=
  runInsertsFrom [] rs

/-- A dynamic-replacement registry entry. The single callback
`addImageDynamicReplacementBlockCallback(baseAddress, start, size, start2,
size2)` delivers both ranges of a pair in one call, so the entry holds the
original-descriptor range and the replacement range together. -/
structure DynReplPair where
  base : Nat
  origStart : Nat
  origSize : Nat
  replStart : Nat
  replSize : Nat
  deriving DecidableEq

/-- The original-descriptor range of a pair, as a plain section range. -/
def DynReplPair.origRange (p : DynReplPair) : SectionRange :=
  ⟨p.base, p.origStart, p.origSize⟩

/-- The replacement range of a pair, as a plain section range. -/
def DynReplPair.replRange (p : DynReplPair) : SectionRange :=
  ⟨p.base, p.replStart, p.replSize⟩

/-- Modelled from the spec: the dynamic-replacements registry after a
sequence of callback invocations. Each invocation is one atomic step (the
callback holds the category lock for its duration and receives both ranges
in a single call), appending one paired entry. -/
def runDynReplOps (ops : List DynReplPair) : List DynReplPair :=
  ops.foldl (fun reg p => reg ++ [p]) []

/-- Modelled from the spec: the sequence of ranges a traversal of a
dynamic-replacements registry snapshot yields — both ranges of every paired
entry, in insertion order. -/
def visibleRanges (reg : List DynReplPair) : List SectionRange :=
  reg.foldr (fun p acc => p.origRange :: p.replRange :: acc) []

/-- The per-category lookup state of the spec's state machine. -/
inductive LookupState where
  | uninitialized
  | initializing
  | initialized
  deriving DecidableEq

/-- Modelled from the spec: the state one category's lookup initializer
guards — the once-flag together with the category registry and a log of the
images scanned so far (each scanned image's base address is appended to the
log, so "scanned exactly once" is a statement about the log). -/
structure InitState where
  phase : LookupState
  registry : List SectionRange
  scanLog : List Nat
  deriving DecidableEq

/-- Modelled from the spec: the winning scan of `initializeXLookup` —
enumerate every already-loaded image, drive each through the callback for
this category, and transition to `initialized`. `images` carries, per
already-loaded image, its base address and its section ranges for the
category. -/
def scanImages (images : List (Nat × List SectionRange))
    (s : InitState) : InitState :=
  { phase := .initialized,
    registry := s.registry ++ (images.map Prod.snd).flatten,
    scanLog := s.scanLog ++ images.map Prod.fst }

/-- Modelled from the spec: one call to `initializeXLookup()` for a category
(the declarations `initializeProtocolLookup` …
`initializeAccessibleFunctionsLookup` in the header). The initialize-once
barrier serializes all callers; under that linearization a call is a no-op
when the state is already `initialized`, and otherwise performs the single
winning scan (`uninitialized → initializing → initialized`). -/
def initializeLookup (images : List (Nat × List SectionRange))
    (s : InitState) : InitState :=
  match s.phase with
  | .initialized => s
  | _ => scanImages images { s with phase := .initializing }

/-- An image as the symbol resolver sees it: file name (modelled as a
borrowed pointer), base address, mapped size, and its symbol table as
`(symbol name, symbol address)` pairs. -/
structure Image where
  fileName : Nat
  base : Nat
  size : Nat
  symbols : List (Nat × Nat)
  deriving DecidableEq

/-- Whether `addr` lies inside the image's mapped address range. -/
def imageContains (img : Image) (addr : Nat) : Bool :=
  decide (img.base ≤ addr) && decide (addr < img.base + img.size)

/-- Modelled from the spec: the nearest symbol at or below `addr` — among
the image's symbols whose address is `≤ addr`, one with maximal address. -/
def nearestSymbol (syms : List (Nat × Nat)) (addr : Nat) :
    Option (Nat × Nat) :=
  match syms with
  | [] => none
  | s :: rest =>
    match nearestSymbol rest addr with
    | none => if s.2 ≤ addr then some s else none
    | some b =>
      if s.2 ≤ addr then
        if b.2 < s.2 then some s else some b
      else some b

/-- The result the resolver reports on success: image file name, image base
address, and the nearest symbol's name and address (absent when the image
has no symbol at or below the input address). -/
structure ResolvedSymbol where
  fileName : Nat
  baseAddress : Nat
  symbol : Option (Nat × Nat)
  deriving DecidableEq

/-- Modelled from the spec: `lookupSymbol` (only declared in the header as
`int lookupSymbol(const void *address, SymbolInfo *info)`). It determines
which loaded image contains the address — `none` (the NotFound failure
result, return value 0) when no image does — and otherwise reports the
owning image's file name and base address together with the nearest symbol
at or below the address. It is a total function: no input faults. -/
def lookupSymbol (images : List Image) (addr : Nat) :
    Option ResolvedSymbol :=
  match images.find? (fun img => imageContains img addr) with
  | none => none
  | some img =>
      some { fileName := img.fileName, baseAddress := img.base,
             symbol := nearestSymbol img.symbols addr }

/-- A Windows `HANDLE`, a pointer-sized value; `0` is the null handle. -/
abbrev HANDLE := Nat

/-- The C++ boolean conversion a `HANDLE` (a pointer) undergoes when passed
where a `bool` parameter is expected: non-null maps to `true`. -/
def handleToBool (h : HANDLE) : Bool :=
  decide (h ≠ 0)

/-- The pointer-sized value obtained by reading a `bool` object back as a
`HANDLE`, idealizing the object representation of `bool` as `0` or `1`. -/
def boolToHandle (b : Bool) : HANDLE :=
  if b then 1 else 0

/-- The process-wide state the Debug Help serialization guard manages: the
single lock, the once-only library-initialization flag, and the global
symbolication option flags (`SymGetOptions`/`SymSetOptions`). -/
structure DbgHelpState where
  locked : Bool
  libInitialized : Bool
  symOptions : Nat
  deriving DecidableEq

/-- The outcome of a caller-supplied operation: it produced a value, or it
failed / raised an error. -/
inductive OpOutcome (α : Type) where
  | ok (value : α)
  | failed
  deriving DecidableEq

/-- Modelled from the spec: the core function-pointer shape
`_swift_withWin32DbgHelpLibrary(void (*body)(HANDLE, void*), void*)`, whose
implementation is not part of the header. Per the spec it (1) acquires the
process-wide lock, (2) lazily performs one-time library initialization
(`initOk` says whether that succeeded, `hProcess` is the handle used),
(3) saves the current global option flags, (4) sets the flags the subsystem
requires, (5) invokes the body with the initialization handle — the body
receives the current flags and may both change them and fail —
(6) restores the saved flags and (7) releases the lock, steps 6 and 7 on
every exit path including a failing body. -/
def withDbgHelpLibrary (initOk : Bool) (hProcess : HANDLE)
    (requiredOptions : Nat) (body : HANDLE → Nat → Nat × OpOutcome α)
    (s : DbgHelpState) : DbgHelpState × OpOutcome α :=
  let saved := s.symOptions
  let outcome :=
    if initOk then (body hProcess requiredOptions).2 else OpOutcome.failed
  ({ locked := false,
     libInitialized := s.libInitialized || initOk,
     symOptions := saved },
   outcome)

/-- From the source (header lines 153–159): the `std::function` overload of
`_swift_withWin32DbgHelpLibrary` passes the address of `body` as the context
pointer and a thunk that `reinterpret_cast`s the context to
`std::function<void(bool)> *` — not `std::function<void(HANDLE)> *` — and
applies it to `hProcess`. The call therefore crosses a
`std::function<void(bool)>::operator()` boundary: the `HANDLE` argument is
converted to `bool` there, and the stored callable, which expects a
`HANDLE`, reads back the `bool` object's representation. The value the
caller-supplied operation observes is modelled as
`boolToHandle (handleToBool hProcess)`. -/
def withDbgHelpLibraryFn (initOk : Bool) (hProcess : HANDLE)
    (requiredOptions : Nat) (body : HANDLE → Nat → Nat × OpOutcome α)
    (s : DbgHelpState) : DbgHelpState × OpOutcome α :=
  withDbgHelpLibrary initOk hProcess requiredOptions
    (fun h flags => body (boolToHandle (handleToBool h)) flags) s

/-- From the source (header lines 178–191): the value-returning template
shape of `_swift_withWin32DbgHelpLibrary` declares a default-initialized
local `R result;` — requiring `R` to be default-constructible and leaving
`result` indeterminate for scalar `R`, modelled by the explicit `indet`
argument — invokes the `std::function` overload with a lambda that assigns
`result = body(hProcess)`, and returns `result` whether or not that lambda
ever ran. -/
def withDbgHelpLibraryValue (indet : R) (initOk : Bool) (hProcess : HANDLE)
    (requiredOptions : Nat) (body : HANDLE → R) (s : DbgHelpState) :
    DbgHelpState × R :=
  let run := withDbgHelpLibraryFn initOk hProcess requiredOptions
    (fun h flags => (flags, OpOutcome.ok (body h))) s
  match run with
  | (s', .ok v) => (s', v)
  | (s', .failed) => (s', indet)

/-- One guard invocation as an element of a call sequence: whether library
initialization succeeds, the handle, the required option flags, and the
caller-supplied operation. -/
structure GuardCall (α : Type) where
  initOk : Bool
  hProcess : HANDLE
  requiredOptions : Nat
  body : HANDLE → Nat → Nat × OpOutcome α

/-- The process state after a sequence of guard calls, each routed through
`withDbgHelpLibrary`. -/
def runGuardCalls (calls : List (GuardCall α)) (s : DbgHelpState) :
    DbgHelpState :=
  calls.foldl
    (fun st c =>
      (withDbgHelpLibrary c.initOk c.hProcess c.requiredOptions c.body st).1)
    s

/-- The state of one metadata-section reference of an image, per category:
no section, an inconsistent (malformed) section table entry, or a section
with its start and size. -/
inductive SectionRef where
  | absent
  | malformed
  | present (sectionStart : Nat) (size : Nat)
  deriving DecidableEq

/-- One image as the Image Enumerator sees it: a base address and one
section reference per category. -/
structure ImageSections where
  base : Nat
  protocols : SectionRef
  protocolConformances : SectionRef
  typeMetadataRecords : SectionRef
  dynamicReplacements : SectionRef
  accessibleFunctions : SectionRef
  deriving DecidableEq

/-- The section reference an image holds for a category. -/
def getRef (img : ImageSections) : Category → SectionRef
  | .protocols => img.protocols
  | .protocolConformances => img.protocolConformances
  | .typeMetadataRecords => img.typeMetadataRecords
  | .dynamicReplacements => img.dynamicReplacements
  | .accessibleFunctions => img.accessibleFunctions

/-- The image with one category's section reference replaced. -/
def setRef (img : ImageSections) (c : Category) (r : SectionRef) :
    ImageSections :=
  match c with
  | .protocols => { img with protocols := r }
  | .protocolConformances => { img with protocolConformances := r }
  | .typeMetadataRecords => { img with typeMetadataRecords := r }
  | .dynamicReplacements => { img with dynamicReplacements := r }
  | .accessibleFunctions => { img with accessibleFunctions := r }

/-- Modelled from the spec: processing one category of one image. A present
section contributes its range; an absent section contributes nothing; an
inconsistent (malformed) section reference is skipped — it also contributes
nothing, and is not an error. `Except.error` models a failure that would
propagate out of image processing (ultimately aborting the process); no
branch produces it. -/
def processCategory (base : Nat) :
    SectionRef → Except Unit (Option SectionRange)
  | .absent => .ok none
  | .malformed => .ok none
  | .present st sz => .ok (some ⟨base, st, sz⟩)

/-- The (category-tagged) contribution of one category of one image. -/
def catContrib (img : ImageSections) (c : Category) :
    Except Unit (List (Category × SectionRange)) :=
  match processCategory img.base (getRef img c) with
  | .error e => .error e
  | .ok none => .ok []
  | .ok (some r) => .ok [(c, r)]

/-- Modelled from the spec: the Image Enumerator processing one image —
every category in turn, concatenating the contributions; an error in any
category would propagate and abort the whole image (and process). -/
def processImage (img : ImageSections) :
    Except Unit (List (Category × SectionRange)) := do
  let a ← catContrib img .protocols
  let b ← catContrib img .protocolConformances
  let c ← catContrib img .typeMetadataRecords
  let d ← catContrib img .dynamicReplacements
  let e ← catContrib img .accessibleFunctions
  pure (a ++ b ++ c ++ d ++ e)

/-! ## Helper lemmas -/

theorem runInsertsFrom_eq (rs : List SectionRange) :
    ∀ acc, runInsertsFrom acc rs = acc ++ rs := by
  induction rs with
  | nil => intro acc; simp [runInsertsFrom]
  | cons r rs ih => intro acc; simp [runInsertsFrom, ih]

theorem runInserts_eq (rs : List SectionRange) : runInserts rs = rs := by
  simp [runInserts, runInsertsFrom_eq]

theorem foldl_append_eq (ops : List DynReplPair) :
    ∀ acc, ops.foldl (fun reg p => reg ++ [p]) acc = acc ++ ops := by
  induction ops with
  | nil => intro acc; simp
  | cons p ops ih => intro acc; simp [ih]

theorem runDynReplOps_eq (ops : List DynReplPair) : runDynReplOps ops = ops := by
  simp [runDynReplOps, foldl_append_eq]

theorem mem_visibleRanges (reg : List DynReplPair) (p : DynReplPair)
    (hp : p ∈ reg) :
    p.origRange ∈ visibleRanges reg ∧ p.replRange ∈ visibleRanges reg := by
  induction reg with
  | nil => cases hp
  | cons q reg ih =>
    rcases List.mem_cons.mp hp with rfl | hmem
    · exact ⟨List.mem_cons_self _ _, List.mem_cons_of_mem _ (List.mem_cons_self _ _)⟩
    · have := ih hmem
      exact ⟨List.mem_cons_of_mem _ (List.mem_cons_of_mem _ this.1),
             List.mem_cons_of_mem _ (List.mem_cons_of_mem _ this.2)⟩

theorem nearestSymbol_none_complete (addr : Nat) (l : List (Nat × Nat))
    (h : nearestSymbol l addr = none) : ∀ t ∈ l, addr < t.2 := by
  induction l with
  | nil => intro t ht; cases ht
  | cons q rest ih =>
    intro t ht
    unfold nearestSymbol at h
    cases hrest : nearestSymbol rest addr with
    | none =>
      rw [hrest] at h
      simp only at h
      by_cases hq : q.2 ≤ addr
      · rw [if_pos hq] at h; cases h
      · rcases List.mem_cons.mp ht with rfl | htmem
        · omega
        · exact ih hrest t htmem
    | some b =>
      rw [hrest] at h
      simp only at h
      by_cases hq : q.2 ≤ addr
      · rw [if_pos hq] at h
        by_cases hc : b.2 < q.2
        · rw [if_pos hc] at h; cases h
        · rw [if_neg hc] at h; cases h
      · rw [if_neg hq] at h; cases h

theorem nearestSymbol_sound (addr : Nat) (l : List (Nat × Nat)) :
    ∀ s, nearestSymbol l addr = some s →
      s ∈ l ∧ s.2 ≤ addr ∧ ∀ t ∈ l, t.2 ≤ addr → t.2 ≤ s.2 := by
  induction l with
  | nil => intro s h; simp [nearestSymbol] at h
  | cons q rest ih =>
    intro s h
    unfold nearestSymbol at h
    cases hrest : nearestSymbol rest addr with
    | none =>
      rw [hrest] at h
      simp only at h
      by_cases hq : q.2 ≤ addr
      · rw [if_pos hq] at h
        cases h
        refine ⟨List.mem_cons_self _ _, hq, ?_⟩
        intro t ht hta
        rcases List.mem_cons.mp ht with rfl | htmem
        · exact le_refl _
        · have := nearestSymbol_none_complete addr rest hrest t htmem
          omega
      · rw [if_neg hq] at h; cases h
    | some b =>
      rw [hrest] at h
      simp only at h
      have hb := ih b hrest
      by_cases hq : q.2 ≤ addr
      · rw [if_pos hq] at h
        by_cases hcmp : b.2 < q.2
        · rw [if_pos hcmp] at h
          cases h
          refine ⟨List.mem_cons_self _ _, hq, ?_⟩
          intro t ht hta
          rcases List.mem_cons.mp ht with rfl | htmem
          · exact le_refl _
          · have := hb.2.2 t htmem hta
            omega
        · rw [if_neg hcmp] at h
          cases h
          refine ⟨List.mem_cons_of_mem _ hb.1, hb.2.1, ?_⟩
          intro t ht hta
          rcases List.mem_cons.mp ht with rfl | htmem
          · omega
          · exact hb.2.2 t htmem hta
      · rw [if_neg hq] at h
        cases h
        refine ⟨List.mem_cons_of_mem _ hb.1, hb.2.1, ?_⟩
        intro t ht hta
        rcases List.mem_cons.mp ht with rfl | htmem
        · exact absurd hta hq
        · exact hb.2.2 t htmem hta

theorem initializeLookup_phase (images : List (Nat × List SectionRange))
    (s : InitState) : (initializeLookup images s).phase = .initialized := by
  cases hs : s.phase <;> simp [initializeLookup, hs, scanImages]

theorem initializeLookup_fixed (images : List (Nat × List SectionRange))
    (s : InitState) (h : s.phase = .initialized) :
    initializeLookup images s = s := by
  unfold initializeLookup
  rw [h]

theorem getRef_setRef (img : ImageSections) (c c' : Category) (r : SectionRef) :
    getRef (setRef img c r) c' = if c' = c then r else getRef img c' := by
  cases c <;> cases c' <;> simp [getRef, setRef]

theorem base_setRef (img : ImageSections) (c : Category) (r : SectionRef) :
    (setRef img c r).base = img.base := by
  cases c <;> rfl

theorem catContrib_setRef_ne (img : ImageSections) (c c' : Category)
    (r : SectionRef) (h : c' ≠ c) :
    catContrib (setRef img c r) c' = catContrib img c' := by
  unfold catContrib
  rw [base_setRef, getRef_setRef, if_neg h]

theorem catContrib_setRef_absent (img : ImageSections) (c : Category) :
    catContrib (setRef img c .absent) c = .ok [] := by
  unfold catContrib
  rw [getRef_setRef, if_pos rfl]
  rfl

theorem catContrib_malformed (img : ImageSections) (c : Category)
    (hm : getRef img c = .malformed) : catContrib img c = .ok [] := by
  unfold catContrib
  rw [hm]
  rfl

theorem catContrib_isOk (img : ImageSections) (c : Category) :
    ∃ l, catContrib img c = .ok l := by
  unfold catContrib
  cases getRef img c <;> exact ⟨_, rfl⟩

theorem catContrib_tags (img : ImageSections) (c : Category)
    (l : List (Category × SectionRange)) (h : catContrib img c = .ok l) :
    ∀ e ∈ l, e.1 = c := by
  unfold catContrib at h
  cases hr : getRef img c <;> rw [hr] at h <;> simp only [processCategory] at h
  · cases h; intro e he; cases he
  · cases h; intro e he; cases he
  · cases h
    intro e he
    rcases List.mem_cons.mp he with rfl | hmem
    · rfl
    · cases hmem

theorem processImage_ok_decomp (img : ImageSections)
    (l : List (Category × SectionRange)) (h : processImage img = .ok l) :
    ∃ l1 l2 l3 l4 l5,
      catContrib img .protocols = .ok l1 ∧
      catContrib img .protocolConformances = .ok l2 ∧
      catContrib img .typeMetadataRecords = .ok l3 ∧
      catContrib img .dynamicReplacements = .ok l4 ∧
      catContrib img .accessibleFunctions = .ok l5 ∧
      l = l1 ++ l2 ++ l3 ++ l4 ++ l5 := by
  obtain ⟨l1, h1⟩ := catContrib_isOk img .protocols
  obtain ⟨l2, h2⟩ := catContrib_isOk img .protocolConformances
  obtain ⟨l3, h3⟩ := catContrib_isOk img .typeMetadataRecords
  obtain ⟨l4, h4⟩ := catContrib_isOk img .dynamicReplacements
  obtain ⟨l5, h5⟩ := catContrib_isOk img .accessibleFunctions
  refine ⟨l1, l2, l3, l4, l5, h1, h2, h3, h4, h5, ?_⟩
  have hok : processImage img = Except.ok (l1 ++ l2 ++ l3 ++ l4 ++ l5) := by
    unfold processImage
    rw [h1, h2, h3, h4, h5]
    rfl
  rw [hok] at h
  injection h with h
  exact h.symm

theorem processImage_isOk (img : ImageSections) :
    ∃ l, processImage img = .ok l := by
  obtain ⟨l1, h1⟩ := catContrib_isOk img .protocols
  obtain ⟨l2, h2⟩ := catContrib_isOk img .protocolConformances
  obtain ⟨l3, h3⟩ := catContrib_isOk img .typeMetadataRecords
  obtain ⟨l4, h4⟩ := catContrib_isOk img .dynamicReplacements
  obtain ⟨l5, h5⟩ := catContrib_isOk img .accessibleFunctions
  refine ⟨l1 ++ l2 ++ l3 ++ l4 ++ l5, ?_⟩
  unfold processImage
  rw [h1, h2, h3, h4, h5]
  rfl

theorem mem_catContrib_ne (img : ImageSections) (c c' : Category)
    (l : List (Category × SectionRange)) (hok : catContrib img c' = .ok l)
    (hempty : catContrib img c = .ok []) (e : Category × SectionRange)
    (he : e ∈ l) (hec : e.1 = c) : False := by
  have ht : e.1 = c' := catContrib_tags img c' l hok e he
  have hcc : c = c' := hec.symm.trans ht
  subst hcc
  rw [hok] at hempty
  injection hempty with hl
  subst hl
  cases he

/-! ## Claims -/

/-- C1: the symbol-name ownership discipline is a property of the returned
value's type: destroying a `SymbolInfo` releases the `symbolName` buffer
exactly once via `free()` when built for Windows (owned discipline,
`free_deleter`), and releases nothing on every other platform (borrowed
discipline, `null_deleter`). -/
theorem c1_symbolName_ownership (info : SymbolInfo) (freed : List Nat)
    (h : info.symbolName ≠ 0) :
    destroySymbolInfo .windows info freed = freed ++ [info.symbolName] ∧
    (destroySymbolInfo .windows info freed).count info.symbolName
      = freed.count info.symbolName + 1 ∧
    destroySymbolInfo .other info freed = freed := by
  refine ⟨?_, ?_, ?_⟩
  · simp [destroySymbolInfo, uniquePtrDestroy, symbolNameDeleter,
      free_deleter, h]
  · simp [destroySymbolInfo, uniquePtrDestroy, symbolNameDeleter,
      free_deleter, h, List.count_append]
  · simp [destroySymbolInfo, uniquePtrDestroy, symbolNameDeleter,
      null_deleter, h]

/-- C1 witness: a concrete `SymbolInfo` whose symbol name is the non-null
pointer `5`, destroyed against an empty free log on both platforms. -/
theorem c1_symbolName_ownership_witness :
    destroySymbolInfo .windows ⟨1, 2, 5, 4⟩ [] = [5] ∧
    destroySymbolInfo .other ⟨1, 2, 5, 4⟩ [] = [] := by
  have h := c1_symbolName_ownership ⟨1, 2, 5, 4⟩ [] (by decide)
  exact ⟨h.1, h.2.2⟩

/-- C2 counterexample: the claim says all five categories expose an unsafe
unsynchronized sibling, but the header declares no
`addImageDynamicReplacementBlockCallbackUnsafe`: the dynamic-replacements
category has only the synchronized entry point. -/
theorem c2_counterexample :
    hasUnsafeCallback Category.dynamicReplacements = false ∧
    ¬ ∀ c : Category, hasUnsafeCallback c = true := by
  refine ⟨rfl, fun h => ?_⟩
  have := h Category.dynamicReplacements
  simp [hasUnsafeCallback] at this

/-- C2 (amended): four of the five metadata categories — all except dynamic
replacements — expose both a synchronized entry point and an unsafe
unsynchronized sibling, and under the documented single-threaded
precondition (nobody holds the category's lock) the unsafe variant produces
a registry state identical to the synchronized variant's. -/
theorem c2_unsafe_matches_sync (c : Category)
    (hc : c ≠ Category.dynamicReplacements) (r : SectionRange)
    (s : CatRegistry) (hs : s.lockHeld = false) :
    hasSyncCallback c = true ∧ hasUnsafeCallback c = true ∧
    addRangeSync r s = some (addRangeUnsafe r s) := by
  refine ⟨rfl, ?_, ?_⟩
  · cases c <;> first | rfl | exact absurd rfl hc
  · cases s with
    | mk lock entries =>
      subst hs
      rfl

/-- C2 witness: the protocols category at a concrete range and an unlocked
registry holding one prior entry. -/
theorem c2_unsafe_matches_sync_witness :
    hasSyncCallback Category.protocols = true ∧
    hasUnsafeCallback Category.protocols = true ∧
    addRangeSync ⟨7, 8, 9⟩ ⟨false, [⟨1, 2, 3⟩]⟩
      = some (addRangeUnsafe ⟨7, 8, 9⟩ ⟨false, [⟨1, 2, 3⟩]⟩) :=
  c2_unsafe_matches_sync Category.protocols (by decide) ⟨7, 8, 9⟩
    ⟨false, [⟨1, 2, 3⟩]⟩ rfl

/-- C3: the claim — that both call shapes of `_swift_withWin32DbgHelpLibrary`
invoke the caller-supplied operation with the handle used to initialize the
Debug Help library — fails on the code: the `std::function` overload
`reinterpret_cast`s its context to `std::function<void(bool)> *`, so the
handle crosses an `operator()(bool)` boundary and collapses to a boolean.
With initialization handle `0x1234` (= 4660) the operation in the no-result
shape observes `OpOutcome.ok 1`, and in the value-returning shape the
identity operation returns `1`, not `4660` — contradicting the header's own
doc comment ("the handle used during initialization is passed to this
function"). -/
theorem c3_handle_collapsed_to_bool :
    (withDbgHelpLibraryFn true 4660 0
        (fun _h flags => (flags, OpOutcome.ok _h)) ⟨false, false, 7⟩).2
      = OpOutcome.ok 1 ∧
    (withDbgHelpLibraryValue 0 true 4660 0 (fun _h => _h)
        ⟨false, false, 7⟩).2 = 1 ∧
    (1 : Nat) ≠ 4660 := by
  refine ⟨by decide, by decide, by decide⟩

/-- C4: for any number `n ≥ 1` of calls to a category's
`initializeXLookup()` (linearized by the initialize-once barrier), the
resulting state equals that produced by a single sequential call: the first
call scans every already-loaded image exactly once (the scan log grows by
exactly one entry per image, the registry by exactly that image's ranges),
and every subsequent call is a no-op. -/
theorem c4_initialize_once (images : List (Nat × List SectionRange))
    (s : InitState) (hs : s.phase = .uninitialized) (n : Nat) (hn : 1 ≤ n) :
    (initializeLookup images)^[n] s = initializeLookup images s ∧
    ((initializeLookup images)^[n] s).scanLog
      = s.scanLog ++ images.map Prod.fst ∧
    ((initializeLookup images)^[n] s).registry
      = s.registry ++ (images.map Prod.snd).flatten := by
  obtain ⟨m, rfl⟩ : ∃ m, n = m + 1 := ⟨n - 1, by omega⟩
  have hfix : initializeLookup images (initializeLookup images s)
      = initializeLookup images s :=
    initializeLookup_fixed _ _ (initializeLookup_phase _ _)
  have hiter : (initializeLookup images)^[m + 1] s
      = initializeLookup images s := by
    rw [Function.iterate_succ_apply]
    exact Function.iterate_fixed hfix m
  refine ⟨hiter, ?_, ?_⟩
  · rw [hiter]
    simp [initializeLookup, hs, scanImages]
  · rw [hiter]
    simp [initializeLookup, hs, scanImages]

/-- C4 witness: two loaded images (bases 16 and 64, the first contributing
one range) and three calls from the uninitialized state. -/
theorem c4_initialize_once_witness :
    (initializeLookup [(16, [⟨16, 32, 8⟩]), (64, [])])^[3]
        ⟨.uninitialized, [], []⟩
      = initializeLookup [(16, [⟨16, 32, 8⟩]), (64, [])]
        ⟨.uninitialized, [], []⟩ ∧
    ((initializeLookup [(16, [⟨16, 32, 8⟩]), (64, [])])^[3]
        ⟨.uninitialized, [], []⟩).scanLog = [16, 64] ∧
    ((initializeLookup [(16, [⟨16, 32, 8⟩]), (64, [])])^[3]
        ⟨.uninitialized, [], []⟩).registry = [⟨16, 32, 8⟩] :=
  c4_initialize_once [(16, [⟨16, 32, 8⟩]), (64, [])]
    ⟨.uninitialized, [], []⟩ rfl 3 (by omega)

/-- C5: `lookupSymbol` is a total function (no fault on any input); for an
address inside no loaded image it returns the NotFound result (`none`), and
for an address inside a loaded image it returns a result carrying the owning
image's file name and base address together with the nearest symbol at or
below the address: a symbol of that image, at or below the address, with no
other such symbol nearer. -/
theorem c5_lookupSymbol_notFound_or_resolved (images : List Image)
    (addr : Nat) :
    ((∀ img ∈ images, imageContains img addr = false) →
      lookupSymbol images addr = none) ∧
    (∀ img, images.find? (fun i => imageContains i addr) = some img →
      ∃ info, lookupSymbol images addr = some info ∧
        info.fileName = img.fileName ∧
        info.baseAddress = img.base ∧
        info.symbol = nearestSymbol img.symbols addr ∧
        ∀ sym, info.symbol = some sym →
          sym ∈ img.symbols ∧ sym.2 ≤ addr ∧
          ∀ t ∈ img.symbols, t.2 ≤ addr → t.2 ≤ sym.2) := by
  constructor
  · intro hall
    have hnone : images.find? (fun i => imageContains i addr) = none :=
      List.find?_eq_none.mpr (fun img hm => by simp [hall img hm])
    simp [lookupSymbol, hnone]
  · intro img hfind
    refine ⟨{ fileName := img.fileName, baseAddress := img.base,
              symbol := nearestSymbol img.symbols addr }, ?_, rfl, rfl, rfl, ?_⟩
    · simp [lookupSymbol, hfind]
    · intro sym hsym
      exact nearestSymbol_sound addr img.symbols sym hsym

/-- C5 witness: one image (file name 7) mapped at [10, 26) with symbols at
addresses 12 and 18; address 5 lies in no image, address 20 resolves to the
symbol at 18. -/
theorem c5_lookupSymbol_witness :
    lookupSymbol [⟨7, 10, 16, [(100, 12), (200, 18)]⟩] 5 = none ∧
    (∃ info,
      lookupSymbol [⟨7, 10, 16, [(100, 12), (200, 18)]⟩] 20 = some info ∧
      info.fileName = 7 ∧
      info.baseAddress = 10 ∧
      info.symbol = nearestSymbol [(100, 12), (200, 18)] 20 ∧
      ∀ sym, info.symbol = some sym →
        sym ∈ [(100, 12), (200, 18)] ∧ sym.2 ≤ 20 ∧
        ∀ t ∈ [(100, 12), (200, 18)], t.2 ≤ 20 → t.2 ≤ sym.2) := by
  constructor
  · exact (c5_lookupSymbol_notFound_or_resolved
      [⟨7, 10, 16, [(100, 12), (200, 18)]⟩] 5).1 (by decide)
  · exact (c5_lookupSymbol_notFound_or_resolved
      [⟨7, 10, 16, [(100, 12), (200, 18)]⟩] 20).2
      ⟨7, 10, 16, [(100, 12), (200, 18)]⟩ (by decide)

/-- C6: a dynamic-replacement entry's two ranges become visible atomically.
Every traversal snapshot of the DynamicReplacements registry — the registry
after any prefix of the linearized sequence of callback invocations, each of
which delivers both ranges of a pair in one atomic (locked) call — contains
either both ranges of a pair or neither, never exactly one. -/
theorem c6_dynRepl_pair_atomic (ops : List DynReplPair) (n : Nat)
    (p : DynReplPair) (hp : p ∈ runDynReplOps (List.take n ops)) :
    p.origRange ∈ visibleRanges (runDynReplOps (List.take n ops)) ∧
    p.replRange ∈ visibleRanges (runDynReplOps (List.take n ops)) :=
  mem_visibleRanges _ p hp

/-- C6 witness: a snapshot taken after the first of two insertions contains
both ranges of the inserted pair. -/
theorem c6_dynRepl_pair_atomic_witness :
    DynReplPair.origRange ⟨1, 2, 3, 4, 5⟩
        ∈ visibleRanges (runDynReplOps
          (List.take 1 [⟨1, 2, 3, 4, 5⟩, ⟨6, 7, 8, 9, 10⟩])) ∧
    DynReplPair.replRange ⟨1, 2, 3, 4, 5⟩
        ∈ visibleRanges (runDynReplOps
          (List.take 1 [⟨1, 2, 3, 4, 5⟩, ⟨6, 7, 8, 9, 10⟩])) :=
  c6_dynRepl_pair_atomic [⟨1, 2, 3, 4, 5⟩, ⟨6, 7, 8, 9, 10⟩] 1
    ⟨1, 2, 3, 4, 5⟩ (by decide)

/-- C7: on every exit path of a `_swift_withWin32DbgHelpLibrary` call —
including a failing caller-supplied operation and one that itself changes
the flags — the previously saved global symbolication option flags are
restored and the process-wide lock is released; hence after any sequence of
guard calls the global flags equal their value before the sequence began. -/
theorem c7_flags_restored_lock_released (initOk : Bool) (h : HANDLE)
    (req : Nat) (body : HANDLE → Nat → Nat × OpOutcome Nat)
    (s : DbgHelpState) (calls : List (GuardCall Nat)) :
    (withDbgHelpLibrary initOk h req body s).1.symOptions = s.symOptions ∧
    (withDbgHelpLibrary initOk h req body s).1.locked = false ∧
    (runGuardCalls calls s).symOptions = s.symOptions := by
  refine ⟨rfl, rfl, ?_⟩
  induction calls generalizing s with
  | nil => rfl
  | cons c cs ih =>
    have hstep : runGuardCalls (c :: cs) s
        = runGuardCalls cs
          ((withDbgHelpLibrary c.initOk c.hProcess c.requiredOptions
            c.body s).1) := rfl
    rw [hstep, ih]
    rfl

/-- C8: every category registry is append-only and duplicate-free under
correctly locked (hence linearized) insertions: traversal yields entries in
exactly registration order (first-in-first-out), extending the insertion
sequence only extends the registry at the tail (it never shrinks), and when
callers honor the no-re-registration obligation no `(base, start)` pair is
ever present twice. -/
theorem c8_registry_invariants (calls extra : List SectionRange)
    (hnodup : (calls.map regKey).Nodup) :
    runInserts calls = calls ∧
    runInserts (calls ++ extra) = runInserts calls ++ extra ∧
    ((runInserts calls).map regKey).Nodup := by
  refine ⟨runInserts_eq calls, ?_, ?_⟩
  · rw [runInserts_eq, runInserts_eq]
  · rw [runInserts_eq]
    exact hnodup

/-- C8 witness: two distinct-keyed insertions followed by a third. -/
theorem c8_registry_invariants_witness :
    runInserts [⟨1, 2, 3⟩, ⟨4, 5, 6⟩] = [⟨1, 2, 3⟩, ⟨4, 5, 6⟩] ∧
    runInserts ([⟨1, 2, 3⟩, ⟨4, 5, 6⟩] ++ [⟨7, 8, 9⟩])
      = runInserts [⟨1, 2, 3⟩, ⟨4, 5, 6⟩] ++ [⟨7, 8, 9⟩] ∧
    ((runInserts [⟨1, 2, 3⟩, ⟨4, 5, 6⟩]).map regKey).Nodup :=
  c8_registry_invariants [⟨1, 2, 3⟩, ⟨4, 5, 6⟩] [⟨7, 8, 9⟩] (by decide)

/-- C9: for an image whose section reference for some category is
inconsistent (malformed), processing never fails (so the host process is
never terminated), skips exactly that category for that image — the result
is the same as if the image had no section for that category, leaving the
other categories' contributions intact — and contributes no entry tagged
with that category. -/
theorem c9_malformed_category_skipped (img : ImageSections) (c : Category)
    (hm : getRef img c = .malformed) :
    (∃ l, processImage img = .ok l) ∧
    processImage img = processImage (setRef img c .absent) ∧
    (∀ l, processImage img = .ok l → ∀ e ∈ l, e.1 ≠ c) := by
  refine ⟨processImage_isOk img, ?_, ?_⟩
  · have key : ∀ c', catContrib (setRef img c .absent) c'
        = catContrib img c' := by
      intro c'
      by_cases hcc : c' = c
      · subst hcc
        rw [catContrib_setRef_absent, catContrib_malformed img c' hm]
      · exact catContrib_setRef_ne img c c' _ hcc
    simp only [processImage, key]
  · intro l hL e he hec
    obtain ⟨l1, l2, l3, l4, l5, h1, h2, h3, h4, h5, rfl⟩ :=
      processImage_ok_decomp img l hL
    have hc_empty := catContrib_malformed img c hm
    simp only [List.append_assoc, List.mem_append] at he
    rcases he with he1 | he2 | he3 | he4 | he5
    · exact mem_catContrib_ne img c _ l1 h1 hc_empty e he1 hec
    · exact mem_catContrib_ne img c _ l2 h2 hc_empty e he2 hec
    · exact mem_catContrib_ne img c _ l3 h3 hc_empty e he3 hec
    · exact mem_catContrib_ne img c _ l4 h4 hc_empty e he4 hec
    · exact mem_catContrib_ne img c _ l5 h5 hc_empty e he5 hec

/-- C9 witness: an image with a present protocols section and a malformed
protocol-conformances section. -/
theorem c9_malformed_category_skipped_witness :
    (∃ l, processImage ⟨1, .present 2 3, .malformed, .absent, .absent,
      .absent⟩ = .ok l) ∧
    processImage ⟨1, .present 2 3, .malformed, .absent, .absent, .absent⟩
      = processImage (setRef ⟨1, .present 2 3, .malformed, .absent, .absent,
        .absent⟩ .protocolConformances .absent) ∧
    (∀ l, processImage ⟨1, .present 2 3, .malformed, .absent, .absent,
        .absent⟩ = .ok l →
      ∀ e ∈ l, e.1 ≠ .protocolConformances) :=
  c9_malformed_category_skipped
    ⟨1, .present 2 3, .malformed, .absent, .absent, .absent⟩
    .protocolConformances rfl

/-- C10: in the value-returning shape of `_swift_withWin32DbgHelpLibrary`,
when the supplied operation is never invoked (library initialization
failed), the guard returns the default-initialized local result variable —
whatever indeterminate value it held, independent of the operation — and
gives the caller no indication the operation did not run: the outcome is
indistinguishable from a successful run that produced the same value. (The
explicit `indet` argument models the requirement that the result type be
default-constructible.) -/
theorem c10_value_shape_indeterminate (indet1 indet2 : Nat) (h : HANDLE)
    (req : Nat) (body : HANDLE → Nat) (s : DbgHelpState)
    (hne : indet1 ≠ indet2) :
    (withDbgHelpLibraryValue indet1 false h req body s).2 = indet1 ∧
    (withDbgHelpLibraryValue indet1 false h req body s).2
      ≠ (withDbgHelpLibraryValue indet2 false h req body s).2 ∧
    (withDbgHelpLibraryValue indet1 false h req body s).2
      = (withDbgHelpLibraryValue indet1 true h req (fun _ => indet1) s).2 :=
  ⟨rfl, fun hEq => hne hEq, rfl⟩

/-- C10 witness: with junk values 0 and 1 in the uninitialized local and an
operation that would return `handle + 2` had it run. -/
theorem c10_value_shape_indeterminate_witness :
    (withDbgHelpLibraryValue 0 false 5 7 (fun hh => hh + 2)
        ⟨false, false, 3⟩).2 = 0 ∧
    (withDbgHelpLibraryValue 0 false 5 7 (fun hh => hh + 2)
        ⟨false, false, 3⟩).2
      ≠ (withDbgHelpLibraryValue 1 false 5 7 (fun hh => hh + 2)
        ⟨false, false, 3⟩).2 ∧
    (withDbgHelpLibraryValue 0 false 5 7 (fun hh => hh + 2)
        ⟨false, false, 3⟩).2
      = (withDbgHelpLibraryValue 0 true 5 7 (fun _ => 0)
        ⟨false, false, 3⟩).2 :=
  c10_value_shape_indeterminate 0 1 5 7 (fun hh => hh + 2)
    ⟨false, false, 3⟩ (by decide)

end ImageInspection
